import Mathlib

/-!
Verification of the RAG corpus-synchronization pipeline.

The development shallowly embeds the Python sources:
  * `inject_pubmed_data.py` — cross-reference sync engine
    (`get_pubmed_abstract`, `filter_addgene_data`, `create_documents`,
    `insert_documents`, `inject_into_chromadb`), in namespace `InjectPubmed`;
  * `inject_data.py` — tabular ingestion (`create_documents`), in
    namespace `InjectData`;
  * `query_rag.py` — query interface (`search`, `search_by_metadata`), in
    namespace `QueryRag`.

External collaborators (the NCBI bibliographic service and the vector
store) are modelled as oracles: a `World` supplies the XML payloads the
HTTP calls would return, and a `Chroma` supplies the store's query
results, so the repository's own control flow is what the theorems are
about.  Fetch calls are made observable by threading an explicit trace of
the identifiers passed to `get_pubmed_abstract`.
-/

namespace InjectPubmed

/-- A primary-corpus (addgene) metadata record; the sync engine reads only
its `pubmed_id` field. -/
structure AddgeneRecord where
  pubmed_id : String
  deriving Repr, DecidableEq

/-- A secondary-corpus record, as built by `filter_addgene_data`:
`{"pubmed_id": ..., "abstract": ...}`. -/
structure AbstractRecord where
  pubmed_id : String
  abstract : String
  deriving Repr, DecidableEq

/-- Oracle for the NCBI E-utilities endpoints reached by
`get_pubmed_abstract`:
  * `elinkIds pid` — the texts of the `LinkSetDb/Link/Id` elements in the
    `elink.fcgi` response for a PMC-form identifier;
  * `fetchFragments pmid` — the texts of the `AbstractText` elements in
    the `efetch.fcgi` response (`none` for an element with no text). -/
structure World where
  elinkIds : String → List String
  fetchFragments : String → List (Option String)

/-- `[abst.text for abst in root.findall(".//AbstractText") if abst.text]`
followed by `" ".join(abstracts)`: keep the fragments that are present and
non-empty (Python truthiness) and join them with single spaces. -/
def joinAbstracts (frags : List (Option String)) : String :=
  String.intercalate " "
    (frags.filterMap (fun o => o.bind (fun s => if s = "" then none else some s)))

/-- Python's `pubmed_id.startswith("PMC")`: the first three characters of
the string are `P`, `M`, `C`.  (Executable counterpart of
`String.startsWith`, stated on the character list.) -/
def startsWithPMC (s : String) : Bool :=
  s.data.take 3 == ['P', 'M', 'C']

/-- `get_pubmed_abstract` (inject_pubmed_data.py:69-108).  An empty
identifier is fatal (`sys.exit(1)`); a PMC-form identifier is resolved via
`elink` to the first `Id` element, and a missing or falsy result raises
`ValueError` — both modelled as `Except.error`.  Otherwise the abstract
fragments are fetched and joined. -/
def get_pubmed_abstract (w : World) (pubmed_id : String) : Except String String :=
  if pubmed_id = "" then
    .error "No pubmed_id passed to get_pubmed_abstract"
  else
    let pmid? : Option String :=
      if startsWithPMC pubmed_id then
        match (w.elinkIds pubmed_id).head? with
        | none => none
        | some t => if t = "" then none else some t
      else
        some pubmed_id
    match pmid? with
    | none => .error ("No PMID found for " ++ pubmed_id)
    | some pmid => .ok (joinAbstracts (w.fetchFragments pmid))

/-- The `for result in addgene_data:` loop shared by the two branches of
`filter_addgene_data` (inject_pubmed_data.py:121-131 and 136-144).
`check` is `cur_pubmed_ids` (the empty list for the branch without a
membership test); `acc` is `new_pubmed_data`; `tr` accumulates every
identifier passed to `get_pubmed_abstract`, in call order.  An exception
from `get_pubmed_abstract` propagates: the remaining records are not
processed. -/
def filter_fetch_loop (w : World) (check : List String) :
    List AddgeneRecord → List AbstractRecord → List String →
    Except String (List AbstractRecord) × List String
  | [], acc, tr => (.ok acc, tr)
  | r :: rs, acc, tr =>
    if r.pubmed_id = "" then
      filter_fetch_loop w check rs acc tr
    else if r.pubmed_id ∈ check then
      filter_fetch_loop w check rs acc tr
    else
      match get_pubmed_abstract w r.pubmed_id with
      | .error e => (.error e, tr ++ [r.pubmed_id])
      | .ok a =>
        filter_fetch_loop w check rs
          (acc ++ [{ pubmed_id := r.pubmed_id, abstract := a }])
          (tr ++ [r.pubmed_id])

/-- `filter_addgene_data` (inject_pubmed_data.py:110-146).  When
`pubmed_data` is non-empty (Python truthiness), empty `addgene_data` is
fatal, `cur_pubmed_ids` is built once from `pubmed_data`, and the loop
skips identifiers found in it; when `pubmed_data` is empty, the loop runs
with no membership test.  The second component is the trace of
`get_pubmed_abstract` calls. -/
def filter_addgene_data (w : World) (addgene_data : List AddgeneRecord)
    (pubmed_data : List AbstractRecord) :
    Except String (List AbstractRecord) × List String :=
  if pubmed_data ≠ [] then
    if addgene_data = [] then
      (.error "No addgene data provided to filter_addgene_data", [])
    else
      let cur_pubmed_ids := pubmed_data.map (·.pubmed_id)
      filter_fetch_loop w cur_pubmed_ids addgene_data pubmed_data []
  else
    filter_fetch_loop w [] addgene_data [] []

/-- A document built by `create_documents` in inject_pubmed_data.py:
`{'id': ..., 'text': ..., 'metadata': ...}` where the metadata is the
`AbstractRecord` dict itself. -/
structure PubDocument where
  id : String
  text : String
  metadata : AbstractRecord
  deriving Repr, DecidableEq

/-- `str(data)` for the two-key dict
`{"pubmed_id": ..., "abstract": ...}`: Python's `repr` of the dict. -/
def pyRepr (r : AbstractRecord) : String :=
  "\x7b'pubmed_id': '" ++ r.pubmed_id ++ "', 'abstract': '" ++ r.abstract ++ "'\x7d"

/-- `create_documents` (inject_pubmed_data.py:149-167).
`for index, data in enumerate(pubmed_data)` with
`if index % 10 != 0: continue`: only every tenth record yields a
document; its id is the record's `pubmed_id`. -/
def create_documents (pubmed_data : List AbstractRecord) : List PubDocument :=
  ((pubmed_data.enum.filter (fun p => p.1 % 10 = 0)).map
    (fun p => { id := p.2.pubmed_id, text := pyRepr p.2, metadata := p.2 }))

/-- The state of a ChromaDB collection, as touched by `collection.add`:
three parallel component lists. -/
structure Collection where
  ids : List String
  docs : List String
  metadatas : List AbstractRecord
  deriving Repr, DecidableEq

/-- `insert_documents` (inject_pubmed_data.py:169-180): decompose the
documents into parallel lists and `collection.add` them (the store appends
them to the collection). -/
def insert_documents (documents : List PubDocument) (collection : Collection) :
    Collection :=
  { ids := collection.ids ++ documents.map (·.id)
    docs := collection.docs ++ documents.map (·.text)
    metadatas := collection.metadatas ++ documents.map (·.metadata) }

/-- The slices `documents[i:i+2000]` for `i in range(0, len(documents), 2000)`,
written with an explicit fuel (any fuel at least the number of loop
iterations computes the same list; `batches` passes the list length). -/
def batchesAux : Nat → List PubDocument → List (List PubDocument)
  | 0, _ => []
  | _, [] => []
  | fuel + 1, l@(_ :: _) => l.take 2000 :: batchesAux fuel (l.drop 2000)

/-- The chunking performed by the insertion loop of `inject_into_chromadb`
(inject_pubmed_data.py:206-207). -/
def batches (documents : List PubDocument) : List (List PubDocument) :=
  batchesAux documents.length documents

/-- `inject_into_chromadb` (inject_pubmed_data.py:182-220), from the point
where the collection handle exists: `insert_documents` is called once per
2000-element slice, sequentially. -/
def inject_into_chromadb (documents : List PubDocument) (collection : Collection) :
    Collection :=
  (batches documents).foldl (fun col chunk => insert_documents chunk col) collection

end InjectPubmed

namespace InjectData

/-- One row of the TSV source, after pandas parsing: each of the eight
named columns is either missing (`pd.notna` false) or present with its
string form (the code reads values only through `str(...)` and f-string
interpolation). -/
structure Row where
  target : Option String
  species : Option String
  grna_sequence : Option String
  addgene_id : Option String
  application : Option String
  cas9_species : Option String
  pubmed_id : Option String
  author_lab : Option String
  deriving Repr, DecidableEq

/-- The metadata dict built for a row (inject_data.py:58-68): all eight
field keys are always present, a missing field giving `''`, plus the
numeric row index. -/
structure RowMetadata where
  target : String
  species : String
  grna_sequence : String
  addgene_id : String
  application : String
  cas9_species : String
  pubmed_id : String
  author_lab : String
  row_index : Nat
  deriving Repr, DecidableEq

/-- A document built by `create_documents` in inject_data.py. -/
structure GDocument where
  id : String
  text : String
  metadata : RowMetadata
  deriving Repr, DecidableEq

/-- The `text_parts` list (inject_data.py:35-52): one `"Field: value"`
fragment per non-missing field, in the fixed source order. -/
def textParts (row : Row) : List String :=
  (row.target.map (fun v => "Target: " ++ v)).toList ++
  (row.species.map (fun v => "Species: " ++ v)).toList ++
  (row.grna_sequence.map (fun v => "gRNA sequence: " ++ v)).toList ++
  (row.addgene_id.map (fun v => "Addgene Plasmid ID: " ++ v)).toList ++
  (row.application.map (fun v => "Application: " ++ v)).toList ++
  (row.cas9_species.map (fun v => "Cas9 species: " ++ v)).toList ++
  (row.pubmed_id.map (fun v => "Pubmed ID: " ++ v)).toList ++
  (row.author_lab.map (fun v => "Author/Lab: " ++ v)).toList

/-- `create_documents` (inject_data.py:29-77): one document per row, with
`id = f"entry_{idx}"`, `text = " | ".join(text_parts)`, and the metadata
dict mapping missing fields to `''`. -/
def create_documents (rows : List Row) : List GDocument :=
  rows.enum.map (fun p =>
    { id := "entry_" ++ toString p.1
      text := String.intercalate " | " (textParts p.2)
      metadata :=
        { target := p.2.target.getD ""
          species := p.2.species.getD ""
          grna_sequence := p.2.grna_sequence.getD ""
          addgene_id := p.2.addgene_id.getD ""
          application := p.2.application.getD ""
          cas9_species := p.2.cas9_species.getD ""
          pubmed_id := p.2.pubmed_id.getD ""
          author_lab := p.2.author_lab.getD ""
          row_index := p.1 } })

end InjectData

namespace QueryRag

/-- One row of a raw store query result, as indexed by the formatting
loops: `results['documents'][0][i]`, `results['metadatas'][0][i]`,
`results['distances'][0][i]` (metadata as a flat string mapping; distance
kept abstract as an integer-scaled value, never computed on here). -/
structure QueryRow where
  document : String
  metadata : List (String × String)
  distance : Int
  deriving Repr, DecidableEq

/-- Oracle for `self.collection.query(query_texts=[text], n_results=n,
where=filt, ...)`: either the result rows or the raised exception. -/
structure Chroma where
  queryResult :
    (text : String) → (n : Nat) → (filt : Option (List (String × String))) →
    Except String (List QueryRow)

/-- A formatted result of `search` (query_rag.py:51-55). -/
structure SearchResult where
  document : String
  metadata : List (String × String)
  distance : Int
  deriving Repr, DecidableEq

/-- A formatted result of `search_by_metadata` (query_rag.py:77-80): no
distance field. -/
structure MetaResult where
  document : String
  metadata : List (String × String)
  deriving Repr, DecidableEq

/-- `RAGQueryInterface.search` (query_rag.py:39-62): query with the text
and no filter; on any exception, log and return `[]`; otherwise format
each row. -/
def search (c : Chroma) (query : String) (n_results : Nat := 5) :
    List SearchResult :=
  match c.queryResult query n_results none with
  | .error _ => []
  | .ok rows => rows.map (fun r =>
      { document := r.document, metadata := r.metadata, distance := r.distance })

/-- `RAGQueryInterface.search_by_metadata` (query_rag.py:64-87): query
with the empty text and the metadata filter as `where`; on any exception,
log and return `[]`; otherwise format each row. -/
def search_by_metadata (c : Chroma) (metadata_filter : List (String × String))
    (n_results : Nat := 10) : List MetaResult :=
  match c.queryResult "" n_results (some metadata_filter) with
  | .error _ => []
  | .ok rows => rows.map (fun r =>
      { document := r.document, metadata := r.metadata })

/-- A record held by the vector store: its document text and flat
metadata mapping. -/
structure StoreRecord where
  document : String
  metadata : List (String × String)
  deriving Repr, DecidableEq

/-- Modelled from the spec: the vector-store engine itself is not part of
this repository; §4.1 specifies that `query` with a filter "restricts
candidates to those whose metadata fields match by equality on every
provided key (logical AND)", with store-defined order and at most `n`
results.  This oracle realizes that contract over an explicit record
list. -/
def chromaOfStore (store : List StoreRecord) : Chroma where
  queryResult := fun _text n filt =>
    let keep : StoreRecord → Bool := fun r =>
      match filt with
      | none => true
      | some f => f.all (fun kv => r.metadata.lookup kv.1 == some kv.2)
    .ok (((store.filter keep).take n).map
      (fun r => { document := r.document, metadata := r.metadata, distance := 0 }))

end QueryRag

namespace InjectPubmed

/-- `(get_pubmed_abstract w p).toOption.getD ""`: the abstract a
successful fetch of `p` returns; used only to state results of runs whose
fetches all succeed. -/
def okAbstract (w : World) (p : String) : String :=
  match get_pubmed_abstract w p with
  | .ok a => a
  | .error _ => ""

/-- The identifiers of the records the sync loop actually fetches: those
with a non-empty `pubmed_id` not found in `check`, in order, one entry per
record occurrence.  Used to state what `filter_fetch_loop` does. -/
def newIds (check : List String) (rs : List AddgeneRecord) : List String :=
  (rs.filter (fun r => !(r.pubmed_id == "") && !(check.contains r.pubmed_id))).map
    (·.pubmed_id)

/-- Concrete bibliographic oracle: every `elink` resolves to `"1"` and
every abstract is the single fragment `"A"`. -/
def wOne : World where
  elinkIds := fun _ => ["1"]
  fetchFragments := fun _ => [some "A"]

/-- Concrete bibliographic oracle on which every `elink` call returns no
`Id` element and every abstract is empty. -/
def wNone : World where
  elinkIds := fun _ => []
  fetchFragments := fun _ => []

/-- Concrete bibliographic oracle whose every `efetch` response carries
the two fragments `"a"` and `"b"`. -/
def wFrag : World where
  elinkIds := fun _ => []
  fetchFragments := fun _ => [some "a", some "b"]

/-- A fixed document, for concrete batching runs. -/
def dummyDoc : PubDocument :=
  { id := "i", text := "t", metadata := { pubmed_id := "p", abstract := "a" } }

/-- A list of 4500 identical documents. -/
def docs4500 : List PubDocument := List.replicate 4500 dummyDoc

/-- A collection with nothing in it. -/
def emptyCollection : Collection :=
  { ids := [], docs := [], metadatas := [] }

end InjectPubmed

namespace QueryRag

/-- Concrete store oracle on which every query raises. -/
def cFail : Chroma where
  queryResult := fun _ _ _ => .error "connection error"

/-- Concrete one-record store whose record's species is `"H. sapiens"`. -/
def sapStore : List StoreRecord :=
  [{ document := "doc", metadata := [("species", "H. sapiens")] }]

end QueryRag

namespace InjectPubmed

theorem filter_fetch_loop_skips (w : World) (check : List String) :
    ∀ (rs : List AddgeneRecord) (acc : List AbstractRecord) (tr : List String),
    (∀ r ∈ rs, r.pubmed_id = "" ∨ r.pubmed_id ∈ check) →
    filter_fetch_loop w check rs acc tr = (.ok acc, tr) := by
  intro rs
  induction rs with
  | nil => intro acc tr _; rfl
  | cons r rs ih =>
    intro acc tr h
    rcases h r (List.mem_cons_self r rs) with he | hm
    · simp [filter_fetch_loop, he]
      exact ih acc tr (fun r hr => h r (List.mem_cons_of_mem _ hr))
    · by_cases he : r.pubmed_id = ""
      · simp [filter_fetch_loop, he]
        exact ih acc tr (fun r hr => h r (List.mem_cons_of_mem _ hr))
      · simp [filter_fetch_loop, he, hm]
        exact ih acc tr (fun r hr => h r (List.mem_cons_of_mem _ hr))

/-- C4: if every non-empty publication identifier of the primary corpus is
already among the secondary corpus's `pubmed_id` values, a sync run makes
zero calls to `get_pubmed_abstract` (the fetch trace is empty). -/
theorem sync_noop_on_convergence (w : World) (addgene : List AddgeneRecord)
    (pubmed : List AbstractRecord)
    (h : ∀ r ∈ addgene, r.pubmed_id ≠ "" → r.pubmed_id ∈ pubmed.map (·.pubmed_id)) :
    (filter_addgene_data w addgene pubmed).2 = [] := by
  unfold filter_addgene_data
  by_cases hp : pubmed = []
  · subst hp
    simp only [ne_eq, not_true_eq_false, if_false]
    rw [filter_fetch_loop_skips]
    intro r hr
    by_cases he : r.pubmed_id = ""
    · exact Or.inl he
    · exact absurd (h r hr he) (by simp)
  · simp only [ne_eq, hp, not_false_eq_true, if_true]
    by_cases ha : addgene = []
    · simp [ha]
    · simp only [ha, if_false]
      rw [filter_fetch_loop_skips]
      intro r hr
      by_cases he : r.pubmed_id = ""
      · exact Or.inl he
      · exact Or.inr (h r hr he)

theorem sync_noop_on_convergence_witness :
    (filter_addgene_data wOne
      [{ pubmed_id := "9" }, { pubmed_id := "" }]
      [{ pubmed_id := "9", abstract := "x" }]).2 = [] := by
  apply sync_noop_on_convergence
  intro r hr hne
  fin_cases hr
  · simp
  · simp at hne


theorem batchesAux_join :
    ∀ (fuel : Nat) (l : List PubDocument), l.length ≤ fuel →
    (batchesAux fuel l).flatten = l := by
  intro fuel
  induction fuel with
  | zero =>
    intro l hl
    rw [List.eq_nil_of_length_eq_zero (Nat.le_zero.mp hl)]
    rfl
  | succ fuel ih =>
    intro l hl
    match l with
    | [] => rfl
    | x :: xs =>
      show (x :: xs).take 2000 ++ (batchesAux fuel ((x :: xs).drop 2000)).flatten = x :: xs
      rw [ih]
      · exact List.take_append_drop 2000 (x :: xs)
      · rw [List.length_drop]
        have : (x :: xs).length = xs.length + 1 := rfl
        omega

theorem batchesAux_mem_length :
    ∀ (fuel : Nat) (l b : List PubDocument), b ∈ batchesAux fuel l →
    b.length ≤ 2000 := by
  intro fuel
  induction fuel with
  | zero => intro l b hb; simp [batchesAux] at hb
  | succ fuel ih =>
    intro l b hb
    match l with
    | [] => simp [batchesAux] at hb
    | x :: xs =>
      rcases List.mem_cons.mp hb with h | h
      · subst h
        simp
      · exact ih _ b h

/-- C5: the insertion loop of `inject_into_chromadb` splits the document
list into contiguous chunks of at most 2000 documents which, concatenated
in order, give back exactly the original list (every document covered
exactly once, order preserved), and a 4500-document list yields exactly
three chunks of sizes 2000, 2000 and 500. -/
theorem batchesAux_nil (fuel : Nat) : batchesAux fuel [] = [] := by
  cases fuel <;> rfl

theorem batchesAux_congr :
    ∀ (f₁ f₂ : Nat) (l : List PubDocument), l.length ≤ f₁ → l.length ≤ f₂ →
    batchesAux f₁ l = batchesAux f₂ l := by
  intro f₁
  induction f₁ with
  | zero =>
    intro f₂ l h₁ _
    rw [List.eq_nil_of_length_eq_zero (Nat.le_zero.mp h₁), batchesAux_nil, batchesAux_nil]
  | succ f₁ ih =>
    intro f₂ l h₁ h₂
    match l with
    | [] => rw [batchesAux_nil, batchesAux_nil]
    | x :: xs =>
      match f₂ with
      | 0 => simp at h₂
      | f₂ + 1 =>
        show (x :: xs).take 2000 :: batchesAux f₁ ((x :: xs).drop 2000) =
          (x :: xs).take 2000 :: batchesAux f₂ ((x :: xs).drop 2000)
        congr 1
        apply ih
        · rw [List.length_drop]
          have : (x :: xs).length = xs.length + 1 := rfl
          omega
        · rw [List.length_drop]
          have : (x :: xs).length = xs.length + 1 := rfl
          omega

theorem batches_cons (x : PubDocument) (xs : List PubDocument) :
    batches (x :: xs) = (x :: xs).take 2000 :: batches ((x :: xs).drop 2000) := by
  show batchesAux ((x :: xs).length) (x :: xs) = _
  have : (x :: xs).length = xs.length + 1 := rfl
  rw [this]
  show (x :: xs).take 2000 :: batchesAux xs.length ((x :: xs).drop 2000) = _
  congr 1
  apply batchesAux_congr
  · rw [List.length_drop]
    omega
  · exact le_refl _

theorem batches_replicate (n : Nat) (hn : n ≠ 0) :
    batches (List.replicate n dummyDoc) =
      List.replicate (min 2000 n) dummyDoc ::
        batches (List.replicate (n - 2000) dummyDoc) := by
  match n, hn with
  | n + 1, _ =>
    rw [List.replicate_succ, batches_cons, ← List.replicate_succ]
    rw [List.take_replicate, List.drop_replicate]

theorem batch_inserter_correct :
    (∀ l b : List PubDocument, b ∈ batches l → b.length ≤ 2000) ∧
    (∀ l : List PubDocument, (batches l).flatten = l) ∧
    (batches docs4500).map List.length = [2000, 2000, 500] := by
  refine ⟨fun l b hb => batchesAux_mem_length l.length l b hb,
          fun l => batchesAux_join l.length l (le_refl _),
          ?_⟩
  have e1 := batches_replicate 4500 (by norm_num)
  rw [show (4500 : Nat) - 2000 = 2500 by norm_num, show min 2000 4500 = 2000 by omega] at e1
  have e2 := batches_replicate 2500 (by norm_num)
  rw [show (2500 : Nat) - 2000 = 500 by norm_num, show min 2000 2500 = 2000 by omega] at e2
  have e3 := batches_replicate 500 (by norm_num)
  rw [show (500 : Nat) - 2000 = 0 by norm_num, show min 2000 500 = 500 by omega] at e3
  have e0 : batches (List.replicate 0 dummyDoc) = [] := rfl
  show (batches (List.replicate 4500 dummyDoc)).map List.length = [2000, 2000, 500]
  rw [e1, e2, e3, e0]
  simp only [List.map_cons, List.map_nil, List.length_replicate]

theorem batch_inserter_correct_witness :
    [dummyDoc] ∈ batches [dummyDoc] ∧ ([dummyDoc] : List PubDocument).length ≤ 2000 := by
  have hm : [dummyDoc] ∈ batches [dummyDoc] := by
    show [dummyDoc] ∈ [[dummyDoc]]
    exact List.mem_singleton.mpr rfl
  exact ⟨hm, batch_inserter_correct.1 [dummyDoc] [dummyDoc] hm⟩

theorem filter_fetch_loop_acc_prefix (w : World) (check : List String) :
    ∀ (rs : List AddgeneRecord) (acc : List AbstractRecord) (tr : List String)
      (l : List AbstractRecord) (tr' : List String),
    filter_fetch_loop w check rs acc tr = (.ok l, tr') →
    ∃ t, l = acc ++ t := by
  intro rs
  induction rs with
  | nil =>
    intro acc tr l tr' h
    simp only [filter_fetch_loop, Prod.mk.injEq, Except.ok.injEq] at h
    exact ⟨[], by simp [← h.1]⟩
  | cons r rs ih =>
    intro acc tr l tr' h
    by_cases he : r.pubmed_id = ""
    · simp only [filter_fetch_loop, he, if_true] at h
      exact ih acc tr l tr' h
    · by_cases hm : r.pubmed_id ∈ check
      · simp only [filter_fetch_loop, he, if_false, hm, if_true] at h
        exact ih acc tr l tr' h
      · simp only [filter_fetch_loop, he, if_false, hm] at h
        cases hg : get_pubmed_abstract w r.pubmed_id with
        | error e => rw [hg] at h; simp at h
        | ok a =>
          rw [hg] at h
          obtain ⟨t, ht⟩ := ih _ _ l tr' h
          exact ⟨{ pubmed_id := r.pubmed_id, abstract := a } :: t, by simp [ht]⟩

/-- C10: whenever `filter_addgene_data` returns normally, its result list
extends the existing secondary-corpus list `pubmed_data`: the existing
records are kept unchanged, in their original order, as a prefix, and
only newly fetched records are appended after them. -/
theorem filter_preserves_existing (w : World) (addgene : List AddgeneRecord)
    (pubmed : List AbstractRecord) (l : List AbstractRecord) (tr : List String)
    (h : filter_addgene_data w addgene pubmed = (.ok l, tr)) :
    ∃ t, l = pubmed ++ t := by
  unfold filter_addgene_data at h
  by_cases hp : pubmed = []
  · subst hp
    simp only [ne_eq, not_true_eq_false, if_false] at h
    obtain ⟨t, ht⟩ := filter_fetch_loop_acc_prefix w [] addgene [] [] l tr h
    exact ⟨t, by simpa using ht⟩
  · simp only [ne_eq, hp, not_false_eq_true, if_true] at h
    by_cases ha : addgene = []
    · simp [ha] at h
    · simp only [ha, if_false] at h
      exact filter_fetch_loop_acc_prefix w _ addgene pubmed [] l tr h

theorem filter_preserves_existing_witness :
    ∃ t, [{ pubmed_id := "9", abstract := "x" }, { pubmed_id := "1", abstract := "A" }] =
      [({ pubmed_id := "9", abstract := "x" } : AbstractRecord)] ++ t :=
  filter_preserves_existing wOne [{ pubmed_id := "1" }]
    [{ pubmed_id := "9", abstract := "x" }]
    [{ pubmed_id := "9", abstract := "x" }, { pubmed_id := "1", abstract := "A" }]
    ["1"] rfl

end InjectPubmed

namespace QueryRag

/-- C9: when the underlying store call raises, `search` and
`search_by_metadata` swallow the exception and return the empty list —
exactly the value they return for a successful query with no matches, so
callers cannot tell the two apart. -/
theorem query_errors_yield_empty (c : Chroma) :
    (∀ (q : String) (n : Nat) (e : String),
      c.queryResult q n none = .error e → search c q n = []) ∧
    (∀ (f : List (String × String)) (n : Nat) (e : String),
      c.queryResult "" n (some f) = .error e → search_by_metadata c f n = []) ∧
    (∀ (q : String) (n : Nat),
      c.queryResult q n none = .ok [] → search c q n = []) ∧
    (∀ (f : List (String × String)) (n : Nat),
      c.queryResult "" n (some f) = .ok [] → search_by_metadata c f n = []) := by
  refine ⟨?_, ?_, ?_, ?_⟩
  · intro q n e h
    simp [search, h]
  · intro f n e h
    simp [search_by_metadata, h]
  · intro q n h
    simp [search, h]
  · intro f n h
    simp [search_by_metadata, h]

theorem query_errors_yield_empty_witness :
    search cFail "CRISPR" 5 = [] ∧
    search_by_metadata cFail [("species", "H. sapiens")] 10 = [] :=
  ⟨(query_errors_yield_empty cFail).1 "CRISPR" 5 "connection error" rfl,
   (query_errors_yield_empty cFail).2.1 [("species", "H. sapiens")] 10
     "connection error" rfl⟩

end QueryRag

namespace InjectPubmed

theorem filterMap_ne_empty :
    ∀ (ts : List String), (∀ t ∈ ts, t ≠ "") →
    ts.filterMap (fun s => if s = "" then none else some s) = ts := by
  intro ts
  induction ts with
  | nil => intro _; rfl
  | cons t ts ih =>
    intro h
    rw [List.filterMap_cons]
    have ht : ¬ t = "" := h t (List.mem_cons_self t ts)
    rw [if_neg ht, ih (fun u hu => h u (List.mem_cons_of_mem _ hu))]

/-- C7: for a PubMed-form identifier, `get_pubmed_abstract` returns the
`AbstractText` fragments concatenated with single spaces, in document
order, and a response with no `AbstractText` element yields the empty
string rather than an error. -/
theorem abstract_fragments_joined (w : World) (p : String) (ts : List String)
    (hne : p ≠ "") (hpmc : startsWithPMC p = false) :
    (w.fetchFragments p = ts.map some → (∀ t ∈ ts, t ≠ "") →
      get_pubmed_abstract w p = .ok (String.intercalate " " ts)) ∧
    (w.fetchFragments p = [] → get_pubmed_abstract w p = .ok "") := by
  have hbase : get_pubmed_abstract w p = .ok (joinAbstracts (w.fetchFragments p)) := by
    unfold get_pubmed_abstract
    simp [hne, hpmc]
  constructor
  · intro hf hts
    rw [hbase, hf]
    unfold joinAbstracts
    rw [List.filterMap_map]
    have hc : ((fun o : Option String =>
          o.bind (fun s => if s = "" then none else some s)) ∘ some) =
        fun s : String => if s = "" then none else some s := rfl
    rw [hc, filterMap_ne_empty ts hts]
  · intro hf
    rw [hbase, hf]
    rfl

theorem abstract_fragments_joined_witness :
    get_pubmed_abstract wFrag "2" = .ok "a b" :=
  (abstract_fragments_joined wFrag "2" ["a", "b"] (by decide) rfl).1 rfl (by decide)

/-- C2 (amended): a failed PMC-to-PubMed resolution is fatal to the sync
run — the `ValueError` raised by `get_pubmed_abstract` propagates out of
`filter_addgene_data` uncaught, the failing record is not skipped, and the
remaining identifiers of the run are never processed. -/
theorem resolution_failure_aborts (w : World) (r : AddgeneRecord)
    (rs : List AddgeneRecord)
    (hne : r.pubmed_id ≠ "") (hpmc : startsWithPMC r.pubmed_id = true)
    (hres : w.elinkIds r.pubmed_id = []) :
    filter_addgene_data w (r :: rs) [] =
      (.error ("No PMID found for " ++ r.pubmed_id), [r.pubmed_id]) := by
  have hg : get_pubmed_abstract w r.pubmed_id =
      .error ("No PMID found for " ++ r.pubmed_id) := by
    unfold get_pubmed_abstract
    simp [hne, hpmc, hres]
  unfold filter_addgene_data
  simp only [ne_eq, not_true_eq_false, if_false]
  unfold filter_fetch_loop
  simp [hne, hg]

theorem resolution_failure_aborts_witness :
    filter_addgene_data wNone [{ pubmed_id := "PMC1" }, { pubmed_id := "2" }] [] =
      (.error ("No PMID found for " ++ "PMC1"), ["PMC1"]) :=
  resolution_failure_aborts wNone { pubmed_id := "PMC1" } [{ pubmed_id := "2" }]
    (by decide) rfl rfl

/-- C2 counterexample: on a run whose first record carries the PMC-form
identifier `"PMC1"` that resolves to no PubMed id, `filter_addgene_data`
returns the propagated error instead of skipping the record — the run
aborts, and the remaining identifier `"2"` is never fetched (the fetch
trace stops at `"PMC1"`), contradicting the claim that the run
continues. -/
theorem resolution_failure_aborts_cex :
    filter_addgene_data wNone [{ pubmed_id := "PMC1" }, { pubmed_id := "2" }] [] =
      (.error "No PMID found for PMC1", ["PMC1"]) := rfl

theorem filter_fetch_loop_ok_trace (w : World) (check : List String) :
    ∀ (rs : List AddgeneRecord) (acc : List AbstractRecord) (tr : List String),
    (∀ r ∈ rs, r.pubmed_id ≠ "" → r.pubmed_id ∉ check →
      (get_pubmed_abstract w r.pubmed_id).isOk) →
    filter_fetch_loop w check rs acc tr =
      (.ok (acc ++ (newIds check rs).map
          (fun p => { pubmed_id := p, abstract := okAbstract w p })),
       tr ++ newIds check rs) := by
  intro rs
  induction rs with
  | nil => intro acc tr _; simp [filter_fetch_loop, newIds]
  | cons r rs ih =>
    intro acc tr h
    have htail : ∀ u ∈ rs, u.pubmed_id ≠ "" → u.pubmed_id ∉ check →
        (get_pubmed_abstract w u.pubmed_id).isOk :=
      fun u hu => h u (List.mem_cons_of_mem _ hu)
    by_cases he : r.pubmed_id = ""
    · have hstep : filter_fetch_loop w check (r :: rs) acc tr =
          filter_fetch_loop w check rs acc tr := by
        simp [filter_fetch_loop, he]
      have hids : newIds check (r :: rs) = newIds check rs := by
        simp [newIds, List.filter_cons, he]
      rw [hstep, ih acc tr htail, hids]
    · by_cases hm : r.pubmed_id ∈ check
      · have hstep : filter_fetch_loop w check (r :: rs) acc tr =
            filter_fetch_loop w check rs acc tr := by
          simp [filter_fetch_loop, he, hm]
        have hids : newIds check (r :: rs) = newIds check rs := by
          simp [newIds, List.filter_cons, he, hm]
        rw [hstep, ih acc tr htail, hids]
      · have hok := h r (List.mem_cons_self r rs) he hm
        cases hget : get_pubmed_abstract w r.pubmed_id with
        | error e => rw [hget] at hok; simp [Except.isOk, Except.toBool] at hok
        | ok a =>
          have hstep : filter_fetch_loop w check (r :: rs) acc tr =
              filter_fetch_loop w check rs
                (acc ++ [{ pubmed_id := r.pubmed_id, abstract := a }])
                (tr ++ [r.pubmed_id]) := by
            simp [filter_fetch_loop, he, hm, hget]
          have hids : newIds check (r :: rs) = r.pubmed_id :: newIds check rs := by
            simp [newIds, List.filter_cons, he, hm]
          have hoa : okAbstract w r.pubmed_id = a := by
            simp [okAbstract, hget]
          rw [hstep, ih _ _ htail, hids]
          simp [hoa, List.append_assoc]

/-- C1 (amended): the sync engine never re-fetches an identifier already
present in the secondary corpus, but it keeps no in-run "seen" set: the
skip list is built once from the secondary corpus and not updated after a
fetch, so a publication identifier shared by several primary records and
absent from the secondary corpus is fetched, and yields a new
AbstractRecord, once per primary-record occurrence (duplicates included),
in record order. -/
theorem sync_fetch_per_occurrence (w : World) (addgene : List AddgeneRecord)
    (pubmed : List AbstractRecord) (hp : pubmed ≠ []) (ha : addgene ≠ [])
    (hok : ∀ r ∈ addgene, r.pubmed_id ≠ "" →
      r.pubmed_id ∉ pubmed.map (·.pubmed_id) →
      (get_pubmed_abstract w r.pubmed_id).isOk) :
    filter_addgene_data w addgene pubmed =
      (.ok (pubmed ++ (newIds (pubmed.map (·.pubmed_id)) addgene).map
          (fun p => { pubmed_id := p, abstract := okAbstract w p })),
       newIds (pubmed.map (·.pubmed_id)) addgene) := by
  unfold filter_addgene_data
  simp only [ne_eq, hp, not_false_eq_true, if_true, ha, if_false]
  have := filter_fetch_loop_ok_trace w (pubmed.map (·.pubmed_id)) addgene pubmed [] hok
  simpa using this

theorem sync_fetch_per_occurrence_witness :
    filter_addgene_data wOne [{ pubmed_id := "7" }, { pubmed_id := "7" }]
        [{ pubmed_id := "9", abstract := "x" }] =
      (.ok ([{ pubmed_id := "9", abstract := "x" }] ++
          (newIds ["9"] [{ pubmed_id := "7" }, { pubmed_id := "7" }]).map
            (fun p => { pubmed_id := p, abstract := okAbstract wOne p })),
       newIds ["9"] [{ pubmed_id := "7" }, { pubmed_id := "7" }]) :=
  sync_fetch_per_occurrence wOne
    [{ pubmed_id := "7" }, { pubmed_id := "7" }]
    [{ pubmed_id := "9", abstract := "x" }]
    (by decide) (by decide)
    (by decide)

/-- C1 counterexample: the two primary records both carry identifier
`"7"`, which is not in the secondary corpus; the run calls
`get_pubmed_abstract` twice for `"7"` (fetch trace `["7", "7"]`) and
appends two new AbstractRecords for it, contradicting "exactly one
external fetch and exactly one new AbstractRecord". -/
theorem sync_dedup_cex :
    filter_addgene_data wOne [{ pubmed_id := "7" }, { pubmed_id := "7" }]
        [{ pubmed_id := "9", abstract := "x" }] =
      (.ok [{ pubmed_id := "9", abstract := "x" },
            { pubmed_id := "7", abstract := "A" },
            { pubmed_id := "7", abstract := "A" }],
       ["7", "7"]) := rfl

theorem foldl_insert_ids :
    ∀ (bs : List (List PubDocument)) (c : Collection),
    (bs.foldl (fun col chunk => insert_documents chunk col) c).ids =
      c.ids ++ bs.flatten.map (·.id) := by
  intro bs
  induction bs with
  | nil => intro c; simp
  | cons b bs ih =>
    intro c
    simp only [List.foldl_cons, List.flatten_cons, List.map_append]
    rw [ih]
    simp [insert_documents, List.append_assoc]

theorem inject_ids (documents : List PubDocument) (c : Collection) :
    (inject_into_chromadb documents c).ids = c.ids ++ documents.map (·.id) := by
  unfold inject_into_chromadb
  rw [foldl_insert_ids]
  have : (batches documents).flatten = documents :=
    batchesAux_join documents.length documents (le_refl _)
  rw [this]

theorem create_documents_mem (l : List AbstractRecord) (i : Nat) (h : i < l.length)
    (hmod : i % 10 = 0) :
    ({ id := l[i].pubmed_id, text := pyRepr l[i], metadata := l[i] } : PubDocument) ∈
      create_documents l := by
  unfold create_documents
  apply List.mem_map.mpr
  refine ⟨(i, l[i]), ?_, rfl⟩
  apply List.mem_filter.mpr
  refine ⟨?_, by simpa using hmod⟩
  apply List.mk_mem_enum_iff_getElem?.mpr
  rw [List.getElem?_eq_getElem h]

/-- C3 (amended): after one full sync run
(`filter_addgene_data`, `create_documents`, `inject_into_chromadb`), the
secondary corpus contains a document whose id is the record's publication
identifier only for the records at positions divisible by 10 of the
filtered list — `create_documents` keeps every tenth record (`index % 10
!= 0: continue`) and drops the rest, so sync completeness holds for those
sampled records alone. -/
theorem sync_sampled_completeness (l : List AbstractRecord) (c : Collection)
    (i : Nat) (h : i < l.length) (hmod : i % 10 = 0) :
    l[i].pubmed_id ∈ (inject_into_chromadb (create_documents l) c).ids := by
  rw [inject_ids]
  apply List.mem_append.mpr
  right
  exact List.mem_map.mpr ⟨_, create_documents_mem l i h hmod, rfl⟩

theorem sync_sampled_completeness_witness :
    ("1" : String) ∈ (inject_into_chromadb
      (create_documents [{ pubmed_id := "1", abstract := "A" }])
      emptyCollection).ids :=
  sync_sampled_completeness [{ pubmed_id := "1", abstract := "A" }]
    emptyCollection 0 (by decide) rfl

/-- C3 counterexample: both primary records have non-empty identifiers and
both fetches succeed, so the filtered list holds records for `"1"` and
`"2"`; yet after `create_documents` and `inject_into_chromadb` the
secondary corpus's ids are `["1"]` only — the record for `"2"`, at index
1, is dropped by the `index % 10 != 0` skip, contradicting the claim for
identifier `"2"`. -/
theorem sync_completeness_cex :
    get_pubmed_abstract wOne "2" = .ok "A" ∧
    (filter_addgene_data wOne [{ pubmed_id := "1" }, { pubmed_id := "2" }] []).1 =
      .ok [{ pubmed_id := "1", abstract := "A" },
           { pubmed_id := "2", abstract := "A" }] ∧
    ("2" ∉ (inject_into_chromadb
        (create_documents [{ pubmed_id := "1", abstract := "A" },
                           { pubmed_id := "2", abstract := "A" }])
        emptyCollection).ids) := by
  refine ⟨rfl, rfl, by decide⟩

end InjectPubmed

namespace InjectData

theorem filterMap_id_cons (o : Option String) (l : List (Option String)) :
    List.filterMap id (o :: l) = o.toList ++ List.filterMap id l := by
  cases o <;> simp

theorem textParts_eq (row : Row) :
    textParts row = List.filterMap id
      [row.target.map (fun v => "Target: " ++ v),
       row.species.map (fun v => "Species: " ++ v),
       row.grna_sequence.map (fun v => "gRNA sequence: " ++ v),
       row.addgene_id.map (fun v => "Addgene Plasmid ID: " ++ v),
       row.application.map (fun v => "Application: " ++ v),
       row.cas9_species.map (fun v => "Cas9 species: " ++ v),
       row.pubmed_id.map (fun v => "Pubmed ID: " ++ v),
       row.author_lab.map (fun v => "Author/Lab: " ++ v)] := by
  simp only [textParts, filterMap_id_cons, List.filterMap_nil, List.append_nil,
    List.append_assoc]

/-- C6: tabular ingestion yields exactly one document per source row; the
document at row index `i` has id `"entry_" ++ i`, its text is the
pipe-joined `"Field: value"` fragments of the row's non-missing fields in
the fixed field order (Target, Species, gRNA sequence, Addgene Plasmid ID,
Application, Cas9 species, Pubmed ID, Author/Lab), and its metadata holds
all eight field keys plus the numeric row index, with every missing field
mapped to the empty string rather than omitted. -/
theorem ingestion_row_documents (rows : List Row) :
    (create_documents rows).length = rows.length ∧
    ∀ (i : Nat) (h : i < rows.length),
      (create_documents rows)[i]? = some
        { id := "entry_" ++ toString i
          text := String.intercalate " | " (List.filterMap id
            [rows[i].target.map (fun v => "Target: " ++ v),
             rows[i].species.map (fun v => "Species: " ++ v),
             rows[i].grna_sequence.map (fun v => "gRNA sequence: " ++ v),
             rows[i].addgene_id.map (fun v => "Addgene Plasmid ID: " ++ v),
             rows[i].application.map (fun v => "Application: " ++ v),
             rows[i].cas9_species.map (fun v => "Cas9 species: " ++ v),
             rows[i].pubmed_id.map (fun v => "Pubmed ID: " ++ v),
             rows[i].author_lab.map (fun v => "Author/Lab: " ++ v)])
          metadata :=
            { target := rows[i].target.getD ""
              species := rows[i].species.getD ""
              grna_sequence := rows[i].grna_sequence.getD ""
              addgene_id := rows[i].addgene_id.getD ""
              application := rows[i].application.getD ""
              cas9_species := rows[i].cas9_species.getD ""
              pubmed_id := rows[i].pubmed_id.getD ""
              author_lab := rows[i].author_lab.getD ""
              row_index := i } } := by
  constructor
  · simp [create_documents]
  · intro i h
    have he : rows.enum[i]? = some (i, rows[i]) := by
      rw [List.getElem?_enum, List.getElem?_eq_getElem h]
      rfl
    simp only [create_documents, List.getElem?_map, he, Option.map_some']
    rw [← textParts_eq]

/-- A concrete source row: Target and Author/Lab present, the other six
fields missing. -/
def row0 : Row :=
  { target := some "AAVS1", species := none, grna_sequence := none
    addgene_id := none, application := none, cas9_species := none
    pubmed_id := none, author_lab := some "Zhang" }

theorem ingestion_row_documents_witness :
    (create_documents [row0])[0]? = some
      { id := "entry_0"
        text := "Target: AAVS1 | Author/Lab: Zhang"
        metadata :=
          { target := "AAVS1", species := "", grna_sequence := ""
            addgene_id := "", application := "", cas9_species := ""
            pubmed_id := "", author_lab := "Zhang", row_index := 0 } } :=
  (ingestion_row_documents [row0]).2 0 (by decide)

end InjectData

namespace QueryRag

/-- C8 (amended): every result of `search_by_metadata` with the filter
`{"species": "H. sapiens"}` is a record whose `species` metadata field
equals exactly `"H. sapiens"` (not the spec's literal `"H. sapiena"`, a
typo), with no partial matches: the store contract filters by equality on
every provided key. -/
theorem metadata_filter_exact (store : List StoreRecord) (n : Nat) (r : MetaResult)
    (hr : r ∈ search_by_metadata (chromaOfStore store) [("species", "H. sapiens")] n) :
    r.metadata.lookup "species" = some "H. sapiens" := by
  unfold search_by_metadata chromaOfStore at hr
  simp only [List.mem_map] at hr
  obtain ⟨q, hq, rfl⟩ := hr
  obtain ⟨s, hs, rfl⟩ := hq
  have hsf := List.mem_of_mem_take hs
  have hkeep := (List.mem_filter.mp hsf).2
  simp only [List.all_cons, List.all_nil, Bool.and_true] at hkeep
  exact eq_of_beq hkeep

theorem metadata_filter_exact_witness :
    ({ document := "doc", metadata := [("species", "H. sapiens")] } :
        MetaResult).metadata.lookup "species" = some "H. sapiens" :=
  metadata_filter_exact sapStore 10
    { document := "doc", metadata := [("species", "H. sapiens")] } (by decide)

/-- C8 counterexample: on a store holding one record whose species is
`"H. sapiens"`, the query returns that record, and its `species` field is
`"H. sapiens"`, not `"H. sapiena"` — so the claim's required value
`"H. sapiena"` is wrong (a spec typo). -/
theorem metadata_filter_cex :
    search_by_metadata (chromaOfStore sapStore) [("species", "H. sapiens")] 10 =
      [{ document := "doc", metadata := [("species", "H. sapiens")] }] ∧
    ([("species", "H. sapiens")] : List (String × String)).lookup "species" ≠
      some "H. sapiena" := by
  exact ⟨rfl, by decide⟩

end QueryRag
